import Mathlib

/-!
Verification of the smartgen generation pipeline: provider registry,
project configuration resolution, prompt construction, cloud dispatch,
tolerant JSON extraction from model responses, and file materialization.
Python dictionaries are modelled as association lists with string keys;
the JSON decoding capability of the standard library is modelled by an
executable JSON parser over lists of characters.
-/

set_option autoImplicit false

namespace Smartgen

/-! ## Association-list model of Python string-keyed dictionaries -/

/-- A Python dict with string keys, as an association list in insertion order. -/
abbrev Dict (α : Type) := List (String × α)

/-- Lookup of a key, first occurrence wins (models `d.get(k)` / `d[k]`). -/
def dget {α : Type} : Dict α → String → Option α
  | [], _ => none
  | (k, v) :: t, key => if k = key then some v else dget t key

/-- Key membership test (models `k in d`). -/
def hasKey {α : Type} (d : Dict α) (key : String) : Bool :=
  (dget d key).isSome

/-- Assignment `d[k] = v`: replaces the value of the first occurrence of the
key in place, appends at the end when the key is absent (Python dicts keep
the position of an existing key on assignment). -/
def dset {α : Type} : Dict α → String → α → Dict α
  | [], key, v => [(key, v)]
  | (k, w) :: t, key, v => if k = key then (key, v) :: t else (k, w) :: dset t key v

/-- Deletion `del d[k]` of the first occurrence of a key. -/
def ddel {α : Type} : Dict α → String → Dict α
  | [], _ => []
  | (k, w) :: t, key => if k = key then t else (k, w) :: ddel t key

/-- Keys of a dict in order. -/
def dkeys {α : Type} (d : Dict α) : List String :=
  d.map Prod.fst

/-- First-some choice on options, models Python `a if a is not None else b`
and the precedence of an existing entry over a fallback. -/
def oOr {α : Type} (a b : Option α) : Option α :=
  match a with
  | some v => some v
  | none => b

/-- Python truthiness of an optional string: `None` and the empty string are
falsy, every other string is truthy. -/
def truthy : Option String → Bool
  | none => false
  | some s => !(s = "")

theorem dget_dset_self {α : Type} (d : Dict α) (k : String) (v : α) :
    dget (dset d k v) k = some v := by
  induction d with
  | nil => simp [dset, dget]
  | cons p t ih =>
    obtain ⟨k', w⟩ := p
    by_cases h : k' = k
    · simp [dset, h, dget]
    · simp [dset, h, dget, ih]

theorem dget_dset_ne {α : Type} (d : Dict α) (k k' : String) (v : α) (h : k' ≠ k) :
    dget (dset d k v) k' = dget d k' := by
  have hne : k ≠ k' := fun hh => h (Eq.symm hh)
  induction d with
  | nil => simp [dset, dget, hne]
  | cons p t ih =>
    obtain ⟨k0, w⟩ := p
    by_cases h0 : k0 = k
    · subst h0
      simp [dset, dget, hne]
    · simp only [dset, if_neg h0, dget]
      by_cases h1 : k0 = k'
      · simp [h1]
      · simp [h1, ih]

theorem hasKey_dset_self {α : Type} (d : Dict α) (k : String) (v : α) :
    hasKey (dset d k v) k = true := by
  simp [hasKey, dget_dset_self]

theorem hasKey_dset_of {α : Type} (d : Dict α) (k k' : String) (v : α)
    (h : hasKey d k' = true) : hasKey (dset d k v) k' = true := by
  by_cases hk : k' = k
  · subst hk; exact hasKey_dset_self d k' v
  · simpa [hasKey, dget_dset_ne d k k' v hk] using h

theorem dget_ddel_ne {α : Type} (d : Dict α) (k k' : String) (h : k' ≠ k) :
    dget (ddel d k) k' = dget d k' := by
  have hne : k ≠ k' := fun hh => h (Eq.symm hh)
  induction d with
  | nil => simp [ddel]
  | cons p t ih =>
    obtain ⟨k0, w⟩ := p
    by_cases h0 : k0 = k
    · subst h0
      simp [ddel, dget, hne]
    · simp only [ddel, if_neg h0, dget]
      by_cases h1 : k0 = k'
      · simp [h1]
      · simp [h1, ih]

theorem hasKey_ddel_ne {α : Type} (d : Dict α) (k k' : String) (h : k' ≠ k) :
    hasKey (ddel d k) k' = hasKey d k' := by
  simp [hasKey, dget_ddel_ne d k k' h]

theorem dget_eq_none_of_not_mem_keys {α : Type} (d : Dict α) (k : String)
    (h : k ∉ dkeys d) : dget d k = none := by
  induction d with
  | nil => simp [dget]
  | cons p t ih =>
    obtain ⟨k0, w⟩ := p
    simp only [dkeys, List.map_cons, List.mem_cons] at h
    push_neg at h
    have h1 : ¬(k0 = k) := fun hh => h.1 (Eq.symm hh)
    simp only [dget, if_neg h1]
    exact ih (by simpa [dkeys] using h.2)

theorem hasKey_ddel_self_of_nodup {α : Type} (d : Dict α) (k : String)
    (hnd : (dkeys d).Nodup) : hasKey (ddel d k) k = false := by
  induction d with
  | nil => simp [ddel, hasKey, dget]
  | cons p t ih =>
    obtain ⟨k0, w⟩ := p
    simp only [dkeys, List.map_cons, List.nodup_cons] at hnd
    by_cases h0 : k0 = k
    · subst h0
      have hmem : k0 ∉ dkeys t := by simpa [dkeys] using hnd.1
      simp [ddel, hasKey, dget_eq_none_of_not_mem_keys t k0 hmem]
    · simp only [ddel, if_neg h0, hasKey, dget, if_neg h0]
      exact ih hnd.2

/-! ## Provider registry (`smartgen/config.py`, `ConfigManager`)

The persisted global configuration is a JSON document
with an optional `llm` section holding an optional `default` key and an
optional `providers` mapping from provider names to provider dicts. -/

/-- The `llm` section of the global configuration file. `dflt` models the
`default` key (absent key versus present value), `providers` models the
`providers` key. -/
structure LlmSection where
  dflt : Option String
  providers : Option (Dict (Dict String))
deriving DecidableEq

/-- The whole global configuration document: an optional `llm` section.
An absent section models both a missing file (loaded as the empty dict)
and a document without the `llm` key. -/
structure Config where
  llm : Option LlmSection
deriving DecidableEq

/-- Errors raised by registry mutations; models the `ValueError` that the
spec calls `NotFoundError`. -/
inductive RegistryError where
  | notFound (name : String)
deriving DecidableEq

/-- The providers mapping as the code reads it: `config.get("llm", dict()).get("providers", dict())`. -/
def providersOf (cfg : Config) : Dict (Dict String) :=
  ((cfg.llm.getD ⟨none, none⟩).providers).getD []

/-- The default provider as the code reads it: `config.get("llm", dict()).get("default")`. -/
def defaultOf (cfg : Config) : Option String :=
  (cfg.llm.getD ⟨none, none⟩).dflt

/-- The provider dict built by `ConfigManager.add_provider`: starts from the
`type` entry, adds `api_key` when a truthy key was supplied, and fills
`model` and `url` either from truthy arguments or, for local providers,
from the fixed defaults. -/
def built_provider_config (provider_type : String)
    (api_key model url : Option String) : Dict String :=
  let pc : Dict String := [("type", provider_type)]
  let pc := if truthy api_key then dset pc "api_key" (api_key.getD "") else pc
  let pc := if truthy model then dset pc "model" (model.getD "")
            else if provider_type = "local" then dset pc "model" "deepseek-coder-v2" else pc
  if truthy url then dset pc "url" (url.getD "")
  else if provider_type = "local" then dset pc "url" "http://localhost:11434" else pc

/-- Embedding of `ConfigManager.add_provider`: ensures the `llm` and
`providers` keys, records whether the mapping was empty, builds the provider
dict, inserts it, and promotes the name to default when it is the first
entry. -/
def add_provider (cfg : Config) (name provider_type : String)
    (api_key model url : Option String) : Config :=
  let l := cfg.llm.getD ⟨none, none⟩
  let provs := l.providers.getD []
  let is_first_provider := provs.isEmpty
  let pc := built_provider_config provider_type api_key model url
  let provs := dset provs name pc
  let dflt := if is_first_provider then some name else l.dflt
  { llm := some { dflt := dflt, providers := some provs } }

/-- Embedding of `ConfigManager.set_default_provider`: ensures the `llm`
key, then fails when the name does not key a provider entry, otherwise sets
the `default` key. A raised error leaves the persisted state unchanged. -/
def set_default_provider (cfg : Config) (provider_name : String) :
    Except RegistryError Config :=
  let l := cfg.llm.getD ⟨none, none⟩
  let provs := l.providers.getD []
  if hasKey provs provider_name then
    .ok { llm := some { l with dflt := some provider_name } }
  else .error (.notFound provider_name)

/-- Embedding of `ConfigManager.remove_provider`: returns at once when the
configuration has no `llm` section; fails when the name does not key a
provider entry; otherwise deletes the entry and pops the `default` key when
it named the removed provider. -/
def remove_provider (cfg : Config) (provider_name : String) :
    Except RegistryError Config :=
  match cfg.llm with
  | none => .ok cfg
  | some l =>
    let provs := l.providers.getD []
    if hasKey provs provider_name then
      let provs := ddel provs provider_name
      let dflt := if l.dflt = some provider_name then none else l.dflt
      .ok { llm := some { dflt := dflt, providers := some provs } }
    else .error (.notFound provider_name)

/-- Registry invariant: whenever the default provider is set, it keys an
entry of the providers mapping. -/
def registryInv (cfg : Config) : Prop :=
  ∀ d, defaultOf cfg = some d → hasKey (providersOf cfg) d = true

theorem providersOf_add_provider (cfg : Config) (name provider_type : String)
    (api_key model url : Option String) :
    providersOf (add_provider cfg name provider_type api_key model url) =
      dset (providersOf cfg) name (built_provider_config provider_type api_key model url) := rfl

theorem defaultOf_add_provider (cfg : Config) (name provider_type : String)
    (api_key model url : Option String) :
    defaultOf (add_provider cfg name provider_type api_key model url) =
      if (providersOf cfg).isEmpty then some name else defaultOf cfg := rfl

/-- Claim C5: adding the first provider to an empty registry promotes it to
default automatically; adding a provider to a registry that already holds at
least one entry leaves the default unchanged. -/
theorem add_provider_default_promotion :
    ∀ (cfg : Config) (name provider_type : String) (api_key model url : Option String),
      (providersOf cfg = [] →
        defaultOf (add_provider cfg name provider_type api_key model url) = some name) ∧
      (providersOf cfg ≠ [] →
        defaultOf (add_provider cfg name provider_type api_key model url) = defaultOf cfg) := by
  intro cfg name provider_type api_key model url
  rw [defaultOf_add_provider]
  constructor
  · intro h
    rw [h]
    rfl
  · intro h
    cases hp : providersOf cfg with
    | nil => exact absurd hp h
    | cons p t => rfl

/-- Witness for C5 on concrete registries: a first `ollama` entry becomes the
default, and a second `openai` entry does not change it. -/
theorem add_provider_default_promotion_witness :
    defaultOf (add_provider { llm := none } "ollama" "local" none none none) = some "ollama" ∧
    defaultOf (add_provider (add_provider { llm := none } "ollama" "local" none none none)
        "openai" "cloud" (some "sk") none none) =
      defaultOf (add_provider { llm := none } "ollama" "local" none none none) :=
  ⟨(add_provider_default_promotion { llm := none } "ollama" "local" none none none).1 rfl,
   (add_provider_default_promotion (add_provider { llm := none } "ollama" "local" none none none)
      "openai" "cloud" (some "sk") none none).2 (by decide)⟩

/-- Claim C6: every registry mutation preserves the invariant that a set
default provider keys an entry of the providers mapping. -/
theorem registry_mutations_preserve_invariant :
    ∀ (cfg : Config), registryInv cfg →
      (∀ (name provider_type : String) (api_key model url : Option String),
          registryInv (add_provider cfg name provider_type api_key model url)) ∧
      (∀ (name : String) (cfg' : Config),
          set_default_provider cfg name = .ok cfg' → registryInv cfg') ∧
      (∀ (name : String) (cfg' : Config),
          remove_provider cfg name = .ok cfg' → registryInv cfg') := by
  intro cfg hinv
  refine ⟨?_, ?_, ?_⟩
  · intro name provider_type api_key model url d hd
    rw [defaultOf_add_provider] at hd
    rw [providersOf_add_provider]
    by_cases he : (providersOf cfg).isEmpty
    · rw [if_pos he] at hd
      obtain rfl : name = d := Option.some.inj hd
      exact hasKey_dset_self _ _ _
    · rw [if_neg he] at hd
      exact hasKey_dset_of _ _ _ _ (hinv d hd)
  · intro name cfg' hok
    by_cases hk : hasKey ((cfg.llm.getD ⟨none, none⟩).providers.getD []) name
    · simp only [set_default_provider, if_pos hk] at hok
      obtain rfl := Except.ok.inj hok
      intro d hd
      obtain rfl : name = d := Option.some.inj hd
      exact hk
    · simp only [set_default_provider, if_neg hk] at hok
      cases hok
  · intro name cfg' hok
    cases hl : cfg.llm with
    | none =>
      unfold remove_provider at hok
      rw [hl] at hok
      obtain rfl := Except.ok.inj hok
      exact hinv
    | some l =>
      unfold remove_provider at hok
      rw [hl] at hok
      simp only at hok
      by_cases hk : hasKey (l.providers.getD []) name
      · rw [if_pos hk] at hok
        obtain rfl := Except.ok.inj hok
        intro d hd
        simp only [defaultOf, Option.getD] at hd
        by_cases hdn : l.dflt = some name
        · rw [if_pos hdn] at hd
          cases hd
        · rw [if_neg hdn] at hd
          have hdname : d ≠ name := by
            intro hEq
            subst hEq
            exact hdn hd
          have hbase : hasKey (providersOf cfg) d = true := by
            apply hinv
            simp [defaultOf, hl, hd]
          have hprov : providersOf cfg = l.providers.getD [] := by
            simp [providersOf, hl]
          show hasKey (ddel (l.providers.getD []) name) d = true
          rw [hasKey_ddel_ne _ _ _ hdname, ← hprov]
          exact hbase
      · rw [if_neg hk] at hok
        cases hok

/-- Witness for C6 at a concrete registry: the invariant holds after adding a
first provider to the empty registry. -/
theorem registry_mutations_preserve_invariant_witness :
    registryInv (add_provider { llm := none } "ollama" "local" none none none) :=
  (registry_mutations_preserve_invariant { llm := none }
      (fun d hd => by cases hd)).1 "ollama" "local" none none none

/-- Claim C3 (amended): removal when the `llm` section is absent returns
without error and leaves the registry unchanged; when the section exists and
the name is absent from the providers mapping it fails with the not-found
error; when the name is present the entry is deleted, the default is cleared
exactly when it named the removed provider, and every other entry is kept. -/
theorem remove_provider_behavior :
    ∀ (cfg : Config) (name : String),
      (cfg.llm = none → remove_provider cfg name = .ok cfg) ∧
      (cfg.llm ≠ none → hasKey (providersOf cfg) name = false →
          remove_provider cfg name = .error (.notFound name)) ∧
      (hasKey (providersOf cfg) name = true → (dkeys (providersOf cfg)).Nodup →
          ∃ cfg', remove_provider cfg name = .ok cfg' ∧
            hasKey (providersOf cfg') name = false ∧
            (∀ k, k ≠ name → dget (providersOf cfg') k = dget (providersOf cfg) k) ∧
            defaultOf cfg' = (if defaultOf cfg = some name then none else defaultOf cfg)) := by
  intro cfg name
  refine ⟨?_, ?_, ?_⟩
  · intro hl
    unfold remove_provider
    rw [hl]
  · intro hl hk
    cases hlv : cfg.llm with
    | none => exact absurd hlv hl
    | some l =>
      have hk' : hasKey (l.providers.getD []) name = false := by
        rw [show l.providers.getD [] = providersOf cfg by simp [providersOf, hlv]]
        exact hk
      unfold remove_provider
      rw [hlv]
      simp only [hk']
      rfl
  · intro hk hnd
    cases hlv : cfg.llm with
    | none =>
      rw [show providersOf cfg = [] by simp [providersOf, hlv]] at hk
      cases hk
    | some l =>
      have hprov : providersOf cfg = l.providers.getD [] := by simp [providersOf, hlv]
      have hk' : hasKey (l.providers.getD []) name = true := by rw [← hprov]; exact hk
      refine ⟨{ llm := some { dflt := if l.dflt = some name then none else l.dflt,
                              providers := some (ddel (l.providers.getD []) name) } }, ?_, ?_, ?_, ?_⟩
      · unfold remove_provider
        rw [hlv]
        simp only [hk']
        rfl
      · show hasKey (ddel (l.providers.getD []) name) name = false
        apply hasKey_ddel_self_of_nodup
        rw [← hprov]
        exact hnd
      · intro k hkname
        show dget (ddel (l.providers.getD []) name) k = dget (providersOf cfg) k
        rw [dget_ddel_ne _ _ _ hkname, hprov]
      · show (if l.dflt = some name then none else l.dflt) =
            (if defaultOf cfg = some name then none else defaultOf cfg)
        rw [show defaultOf cfg = l.dflt by simp [defaultOf, hlv]]

/-- Counterexample for C3 as stated: on a registry whose configuration has no
`llm` section, the name `openai` is absent from the providers mapping, yet
removal succeeds silently instead of failing with the not-found error. -/
theorem remove_provider_silent_on_missing_llm_section :
    remove_provider { llm := none } "openai" = .ok { llm := none } ∧
    hasKey (providersOf { llm := none }) "openai" = false := by
  exact ⟨rfl, rfl⟩

/-- Concrete registry used by the C3 witness. -/
def c3Cfg : Config :=
  { llm := some { dflt := some "a", providers := some [("a", [("type", "local")])] } }

/-- Witness for C3 at a concrete registry: removing the present default
provider `a` succeeds, deletes the entry and clears the default. -/
theorem remove_provider_behavior_witness :
    ∃ cfg', remove_provider c3Cfg "a" = .ok cfg' ∧
      hasKey (providersOf cfg') "a" = false ∧
      (∀ k, k ≠ "a" → dget (providersOf cfg') k = dget (providersOf c3Cfg) k) ∧
      defaultOf cfg' = (if defaultOf c3Cfg = some "a" then none else defaultOf c3Cfg) :=
  (remove_provider_behavior c3Cfg "a").2.2 (by decide) (by decide)

/-! ## Project configuration resolution (`_merge_with_global_config`)

Identical in `domain_generator.py` and `layout_generator.py`: the provider
entry loaded from the project file is merged with the entry of the same name
from the global registry, copying only sensitive fields and only when the
project entry does not already define them. -/

/-- The recognized sensitive field names, in the order the code checks them. -/
def sensitive_fields : List String :=
  ["api_key", "api_secret", "token", "password"]

/-- One step of the merge loop body: copy the field from the global provider
entry when it is present there and absent from the merged dict. -/
def merge_field (global_provider_config merged : Dict String) (field : String) : Dict String :=
  if hasKey global_provider_config field && !(hasKey merged field) then
    dset merged field ((dget global_provider_config field).getD "")
  else merged

/-- Embedding of `_merge_with_global_config`: starts from a copy of the
project-level provider config and folds the merge step over the sensitive
fields. -/
def merge_with_global_config (project_config global_provider_config : Dict String) : Dict String :=
  sensitive_fields.foldl (merge_field global_provider_config) project_config

theorem dget_merge_field_self (glob m : Dict String) (f : String) :
    dget (merge_field glob m f) f = oOr (dget m f) (dget glob f) := by
  unfold merge_field hasKey
  cases hg : dget glob f with
  | none => cases hm : dget m f <;> simp [hg, hm, oOr]
  | some v =>
    cases hm : dget m f with
    | none => simp [hg, hm, oOr, dget_dset_self]
    | some w => simp [hg, hm, oOr]

theorem dget_merge_field_ne (glob m : Dict String) (f k : String) (h : k ≠ f) :
    dget (merge_field glob m f) k = dget m k := by
  unfold merge_field
  by_cases hc : (hasKey glob f && !hasKey m f) = true
  · rw [if_pos hc]
    exact dget_dset_ne m f k _ h
  · rw [if_neg hc]

/-- Claim C4: the merged provider entry takes each sensitive field from the
project entry when defined there, otherwise from the registry entry, and
takes every non-sensitive field from the project entry unchanged. -/
theorem resolve_provider_secret_merge :
    ∀ (project_config global_provider_config : Dict String),
      (∀ f, f ∈ sensitive_fields →
          dget (merge_with_global_config project_config global_provider_config) f =
            oOr (dget project_config f) (dget global_provider_config f)) ∧
      (∀ f, f ∉ sensitive_fields →
          dget (merge_with_global_config project_config global_provider_config) f =
            dget project_config f) := by
  intro p g
  have hunfold : merge_with_global_config p g =
      merge_field g (merge_field g (merge_field g (merge_field g p "api_key") "api_secret")
        "token") "password" := rfl
  constructor
  · intro f hf
    simp only [sensitive_fields, List.mem_cons, List.not_mem_nil, or_false] at hf
    rcases hf with rfl | rfl | rfl | rfl <;>
      simp [hunfold, dget_merge_field_ne, dget_merge_field_self]
  · intro f hf
    simp only [sensitive_fields, List.mem_cons, List.not_mem_nil, or_false] at hf
    push_neg at hf
    obtain ⟨h1, h2, h3, h4⟩ := hf
    rw [hunfold, dget_merge_field_ne g _ "password" f h4, dget_merge_field_ne g _ "token" f h3,
      dget_merge_field_ne g _ "api_secret" f h2, dget_merge_field_ne g _ "api_key" f h1]

/-- Witness for C4 at concrete dicts: the registry fills a missing `api_key`
and the non-sensitive `model` field stays the project value. -/
theorem resolve_provider_secret_merge_witness :
    (("api_key" : String) ∈ sensitive_fields ∧
      dget (merge_with_global_config [("type", "cloud"), ("model", "gpt-4")]
          [("type", "cloud"), ("api_key", "sk-global")]) "api_key" =
        oOr (dget [("type", "cloud"), ("model", "gpt-4")] "api_key")
          (dget [("type", "cloud"), ("api_key", "sk-global")] "api_key")) ∧
    (("model" : String) ∉ sensitive_fields ∧
      dget (merge_with_global_config [("type", "cloud"), ("model", "gpt-4")]
          [("type", "cloud"), ("api_key", "sk-global")]) "model" =
        dget [("type", "cloud"), ("model", "gpt-4")] "model") :=
  ⟨⟨by decide,
    (resolve_provider_secret_merge [("type", "cloud"), ("model", "gpt-4")]
        [("type", "cloud"), ("api_key", "sk-global")]).1 "api_key" (by decide)⟩,
   ⟨by decide,
    (resolve_provider_secret_merge [("type", "cloud"), ("model", "gpt-4")]
        [("type", "cloud"), ("api_key", "sk-global")]).2 "model" (by decide)⟩⟩

/-! ## Cloud provider dispatch (`_is_codex_model`, `_call_cloud_provider`)

The network call itself is external; the embedding captures the request the
dispatcher builds: which calling convention is selected and with which
model, messages, generation budget and sampling temperature. -/

/-- A legacy completion-style request as built by `_call_cloud_provider`. -/
structure CompletionCall where
  model : String
  prompt : String
  max_tokens : Nat
  temperature : ℚ
deriving DecidableEq

/-- A chat-style request as built by `_call_cloud_provider`. -/
structure ChatCall where
  model : String
  messages : List (String × String)
  temperature : ℚ
deriving DecidableEq

/-- The request dispatched to the cloud backend. -/
inductive CloudCall where
  | completion (call : CompletionCall)
  | chat (call : ChatCall)
deriving DecidableEq

/-- The known closed list of Codex models from `_is_codex_model`. -/
def codex_models : List String :=
  ["code-davinci-002", "code-davinci-001", "code-cushman-002", "code-cushman-001"]

/-- List membership test on strings, models the Python `in` operator. -/
def str_list_contains (l : List String) (s : String) : Bool :=
  l.any (fun x => x = s)

/-- Prefix test on strings, models `str.startswith`. -/
def str_starts_with (s p : String) : Bool :=
  p.data.isPrefixOf s.data

/-- Embedding of `_is_codex_model`. -/
def is_codex_model (model : String) : Bool :=
  str_list_contains codex_models model || str_starts_with model "code-"

/-- The system instruction of the domain generator chat call. -/
def domain_chat_system_message : String :=
  "You are an expert software architect specializing in Domain-Driven Design."

/-- Embedding of `_call_cloud_provider` (domain generator): reads the model
name with default `gpt-4`, then builds a legacy completion request capped at
4000 tokens for Codex models and a chat request with system instruction plus
user prompt otherwise, both at temperature 0.2. -/
def call_cloud_provider (provider_config : Dict String) (prompt : String) : CloudCall :=
  let model := (dget provider_config "model").getD "gpt-4"
  if is_codex_model model then
    .completion { model := model, prompt := prompt, max_tokens := 4000, temperature := 0.2 }
  else
    .chat { model := model,
            messages := [("system", domain_chat_system_message), ("user", prompt)],
            temperature := 0.2 }

/-- Claim C7: the dispatcher routes to the legacy completion call (budget
4000, temperature 0.2) exactly when the model is in the closed Codex list or
starts with `code-`, and to the chat call with system instruction plus user
prompt at the same temperature otherwise; `code-davinci-002` and every
`code-` name are Codex, `gpt-4` and `claude-x` are not. -/
theorem codex_model_routing :
    ∀ (provider_config : Dict String) (prompt : String),
      (∀ m : String, is_codex_model m =
          (str_list_contains codex_models m || str_starts_with m "code-")) ∧
      (is_codex_model ((dget provider_config "model").getD "gpt-4") = true →
        call_cloud_provider provider_config prompt =
          .completion { model := (dget provider_config "model").getD "gpt-4", prompt := prompt,
                        max_tokens := 4000, temperature := 0.2 }) ∧
      (is_codex_model ((dget provider_config "model").getD "gpt-4") = false →
        call_cloud_provider provider_config prompt =
          .chat { model := (dget provider_config "model").getD "gpt-4",
                  messages := [("system", domain_chat_system_message), ("user", prompt)],
                  temperature := 0.2 }) ∧
      is_codex_model "code-davinci-002" = true ∧
      (∀ m : String, str_starts_with m "code-" = true → is_codex_model m = true) ∧
      is_codex_model "gpt-4" = false ∧
      is_codex_model "claude-x" = false := by
  intro provider_config prompt
  refine ⟨fun m => rfl, ?_, ?_, by decide, ?_, by decide, by decide⟩
  · intro h
    unfold call_cloud_provider
    rw [if_pos h]
  · intro h
    unfold call_cloud_provider
    rw [if_neg (by rw [h]; exact Bool.false_ne_true)]
  · intro m h
    simp [is_codex_model, h]

/-- Witness for C7 at concrete model names: `code-davinci-002` yields the
completion call and `gpt-4` yields the chat call. -/
theorem codex_model_routing_witness :
    call_cloud_provider [("model", "code-davinci-002")] "p" =
      .completion { model := "code-davinci-002", prompt := "p",
                    max_tokens := 4000, temperature := 0.2 } ∧
    call_cloud_provider [("model", "gpt-4")] "p" =
      .chat { model := "gpt-4",
              messages := [("system", domain_chat_system_message), ("user", "p")],
              temperature := 0.2 } :=
  ⟨(codex_model_routing [("model", "code-davinci-002")] "p").2.1 (by decide),
   (codex_model_routing [("model", "gpt-4")] "p").2.2.1 (by decide)⟩

/-! ## File materialization (`_write_domain_files` / `_write_layout_files`)

The on-disk state is modelled as a map from absolute paths to file
contents; directories are always creatable and are not modelled. -/

/-- The file-system state relevant to the materializer. -/
def FileSystem := String → Option String

/-- Writing one file: overwrites any existing content at the path. -/
def fs_write (fs : FileSystem) (path content : String) : FileSystem :=
  fun q => if q = path then some content else fs q

/-- One entry of the parsed manifest. -/
structure ManifestEntry where
  path : String
  content : String
deriving DecidableEq

/-- Path resolution `project_dir / file_info["path"]`. -/
def join_path (root rel : String) : String := root ++ "/" ++ rel

/-- One iteration of the write loop: write the file and append its absolute
path to the list of generated files. -/
def write_files_step (root : String) (st : FileSystem × List String)
    (e : ManifestEntry) : FileSystem × List String :=
  (fs_write st.1 (join_path root e.path) e.content, st.2 ++ [join_path root e.path])

/-- Embedding of the write loop shared by `_write_domain_files` and
`_write_layout_files`: writes each entry in manifest order and returns the
ordered list of written absolute paths. -/
def write_files (root : String) (entries : List ManifestEntry) (fs : FileSystem) :
    FileSystem × List String :=
  entries.foldl (write_files_step root) (fs, [])

/-- The plain fold of the file writes, without path accumulation. -/
def apply_writes (root : String) (entries : List ManifestEntry) (fs : FileSystem) : FileSystem :=
  entries.foldl (fun f e => fs_write f (join_path root e.path) e.content) fs

/-- The content of the last manifest entry written to a given path, if any. -/
def last_write (root : String) (entries : List ManifestEntry) (q : String) : Option String :=
  entries.foldl (fun acc e => if join_path root e.path = q then some e.content else acc) none

theorem write_files_fst (root : String) :
    ∀ (entries : List ManifestEntry) (st : FileSystem × List String),
      (entries.foldl (write_files_step root) st).1 = apply_writes root entries st.1 := by
  intro entries
  induction entries with
  | nil => intro st; rfl
  | cons e t ih =>
    intro st
    simp only [List.foldl_cons, apply_writes]
    exact ih _

theorem write_files_snd (root : String) :
    ∀ (entries : List ManifestEntry) (st : FileSystem × List String),
      (entries.foldl (write_files_step root) st).2 =
        st.2 ++ entries.map (fun e => join_path root e.path) := by
  intro entries
  induction entries with
  | nil => intro st; simp
  | cons e t ih =>
    intro st
    simp only [List.foldl_cons, List.map_cons]
    rw [ih]
    simp [write_files_step]

theorem last_write_acc (root : String) (q : String) :
    ∀ (entries : List ManifestEntry) (a : Option String),
      entries.foldl (fun acc e => if join_path root e.path = q then some e.content else acc) a =
        match last_write root entries q with
        | some c => some c
        | none => a := by
  intro entries
  induction entries with
  | nil => intro a; rfl
  | cons e t ih =>
    intro a
    simp only [List.foldl_cons, last_write]
    rw [ih, ih (if join_path root e.path = q then some e.content else none)]
    cases hT : last_write root t q with
    | some c => rfl
    | none =>
      by_cases hc : join_path root e.path = q
      · rw [if_pos hc, if_pos hc]
      · rw [if_neg hc, if_neg hc]

theorem apply_writes_lookup (root : String) :
    ∀ (entries : List ManifestEntry) (fs : FileSystem) (q : String),
      apply_writes root entries fs q =
        match last_write root entries q with
        | some c => some c
        | none => fs q := by
  intro entries
  induction entries with
  | nil => intro fs q; rfl
  | cons e t ih =>
    intro fs q
    simp only [apply_writes, List.foldl_cons] at ih ⊢
    rw [ih]
    have hlw : last_write root (e :: t) q =
        match last_write root t q with
        | some c => some c
        | none => if join_path root e.path = q then some e.content else none := by
      simp only [last_write, List.foldl_cons]
      exact last_write_acc root q t _
    rw [hlw]
    cases last_write root t q with
    | some c => rfl
    | none =>
      simp only [fs_write]
      by_cases hc : join_path root e.path = q
      · rw [if_pos hc]
        simp [if_pos hc.symm]
      · rw [if_neg hc]
        have : ¬(q = join_path root e.path) := fun hh => hc (Eq.symm hh)
        simp [this]

/-- Claim C8: materializing the same manifest twice produces the same file
contents as materializing it once, the second run only overwrites, and both
runs return the ordered list of the absolute paths of the manifest entries. -/
theorem write_files_idempotent :
    ∀ (root : String) (entries : List ManifestEntry) (fs : FileSystem),
      (write_files root entries (write_files root entries fs).1).1 =
        (write_files root entries fs).1 ∧
      (write_files root entries (write_files root entries fs).1).2 =
        (write_files root entries fs).2 ∧
      (write_files root entries fs).2 = entries.map (fun e => join_path root e.path) := by
  intro root entries fs
  refine ⟨?_, ?_, ?_⟩
  · funext q
    unfold write_files
    rw [write_files_fst, write_files_fst]
    rw [apply_writes_lookup, apply_writes_lookup]
    cases last_write root entries q <;> rfl
  · unfold write_files
    rw [write_files_snd, write_files_snd]
  · unfold write_files
    rw [write_files_snd]
    rfl

/-! ## Prompt construction (`_build_prompt` in both generators) -/

/-- Embedding of `DomainGeneratorService._build_prompt`: a fixed template
around the policy and requirements texts. -/
def build_prompt_domain (srs_content policy_content : String) : String :=
  "You are a domain modeling expert. Based on the Software Requirements Specification (SRS) and the Domain-Driven Design (DDD) policy provided, generate the domain layer code.\n\n# DDD Policy and Guidelines:\n"
  ++ policy_content
  ++ "\n\n# Software Requirements Specification:\n"
  ++ srs_content
  ++ "\n\n# Instructions:\n1. Analyze the requirements in the SRS\n2. Identify domain entities, value objects, aggregates, and domain services\n3. Generate Python code following the DDD policy strictly\n4. Organize code into proper directories (aggregates/, entities/, value_objects/, services/, errors/)\n5. Include proper docstrings and type hints\n6. Ensure all invariants are enforced in the domain models\n\n# Output Format:\nReturn a JSON object with the following structure:\n\x7b\n    \"files\": [\n        \x7b\n            \"path\": \"src/domain/aggregates/order.py\",\n            \"content\": \"# Generated code here...\"\n        \x7d,\n        \x7b\n            \"path\": \"src/domain/value_objects/email.py\",\n            \"content\": \"# Generated code here...\"\n        \x7d\n    ]\n\x7d\n\nGenerate the domain layer code now:"

/-- The rendered listing of prior-stage domain files in the layout prompt:
empty when no domain files exist, otherwise a header followed by one fenced
block per file in insertion order. -/
def render_domain_files_section (domain_files_content : List (String × String)) : String :=
  if domain_files_content.isEmpty then ""
  else domain_files_content.foldl
    (fun acc p => acc ++ "\n## " ++ p.1 ++ "\n```python\n" ++ p.2 ++ "\n```\n")
    "\n# Existing Domain Layer Files:\n"

/-- Embedding of `LayoutGeneratorService._build_prompt`. -/
def build_prompt_layout (srs_content policy_content : String)
    (domain_files_content : List (String × String)) : String :=
  "You are a software architect specializing in layered architecture design. Based on the Software Requirements Specification (SRS), the existing Domain Layer files, and the layout policy provided, generate the structure (no implementations) for the Application, Infrastructure, and Interface layers.\n\n# Layout Policy and Guidelines:\n"
  ++ policy_content
  ++ "\n\n# Software Requirements Specification:\n"
  ++ srs_content
  ++ "\n"
  ++ render_domain_files_section domain_files_content
  ++ "\n# Instructions:\n1. Analyze the requirements in the SRS\n2. Review the existing domain models to understand what entities, value objects, and aggregates exist\n3. Design the Application, Infrastructure, and Interface layers that work with these domain models\n4. Organize files following the policy guidelines strictly\n5. IMPORTANT: Return the generated structure in a JSON format with file paths and content as shown below:\n\n# Output Format:\nReturn a JSON object with the following structure:\n\x7b\n    \"files\": [\n        \x7b\n            \"path\": \"src/application/use_cases/create_order_use_case.py\",\n            \"content\": \"\"\n        \x7d,\n        \x7b\n            \"path\": \"src/infrastructure/repositories/order_repository.py\",\n            \"content\": \"\"\n        \x7d,\n        \x7b\n            \"path\": \"src/interface/controllers/order_controller.py\",\n            \"content\": \"\"\n        \x7d\n    ]\n\x7d\n\nGenerate the application layout structure now:"

/-- Claim C9: prompt construction is a pure function of its inputs — two
calls on identical policy, requirements and prior-artifact inputs yield
byte-identical strings, for both generators. -/
theorem build_prompt_deterministic :
    ∀ (srs1 policy1 srs2 policy2 : String) (files1 files2 : List (String × String)),
      srs1 = srs2 → policy1 = policy2 → files1 = files2 →
      build_prompt_domain srs1 policy1 = build_prompt_domain srs2 policy2 ∧
      build_prompt_layout srs1 policy1 files1 = build_prompt_layout srs2 policy2 files2 := by
  intro srs1 policy1 srs2 policy2 files1 files2 h1 h2 h3
  subst h1; subst h2; subst h3
  exact ⟨rfl, rfl⟩

/-- Witness for C9 at concrete inputs. -/
theorem build_prompt_deterministic_witness :
    build_prompt_domain "srs text" "policy text" = build_prompt_domain "srs text" "policy text" ∧
    build_prompt_layout "srs text" "policy text" [("src/domain/a.py", "pass")] =
      build_prompt_layout "srs text" "policy text" [("src/domain/a.py", "pass")] :=
  build_prompt_deterministic "srs text" "policy text" "srs text" "policy text"
    [("src/domain/a.py", "pass")] [("src/domain/a.py", "pass")] rfl rfl rfl

/-! ## Project initialization (`llm_init.py`, `LLMInitService`)

The Ollama pull is an external effect; its outcome is passed in as a
parameter. The project file written by `_write_project_config` is modelled
structurally as the payload handed to the serializer, plus a rendering
function for the on-disk text. -/

/-- Errors of the init service; the Python classes are all subclasses of
`LLMInitError`, so every constructor counts as an `LLMInitError`. -/
inductive InitError where
  | missingConfig
  | missingApiKey
  | unsupportedLocalProvider
  | unknownProviderType
  | configExists
  | pullFailed
deriving DecidableEq

/-- The `InitResult` dataclass (the path field is determined by the target
directory and is omitted). -/
structure InitResult where
  provider_name : String
  provider_config : Dict String
  pull_response : Option String
deriving DecidableEq

/-- The structured payload written to `.smartgen.yml`: the chosen default
name and the single-entry providers mapping. -/
structure ProjectPayload where
  dflt : String
  providers : Dict (Dict String)
deriving DecidableEq

/-- Python truthiness of the `llm` section dict: falsy exactly when it has
no keys at all. -/
def llm_section_truthy (l : LlmSection) : Bool :=
  l.dflt.isSome || l.providers.isSome

/-- Python `value or default` on an optional string. -/
def py_or_str (v : Option String) (dflt : String) : String :=
  match v with
  | some s => if s = "" then dflt else s
  | none => dflt

/-- Whether an `Except` result is an error. -/
def is_err {ε α : Type} : Except ε α → Bool
  | .error _ => true
  | .ok _ => false

/-- Embedding of `_write_project_config`: refuses to write when the target
directory already holds a `.smartgen.yml`, otherwise produces the payload
with the provider entry passed in, verbatim. -/
def write_project_config (existing_file : Option String) (provider_name : String)
    (provider_config : Dict String) : Except InitError ProjectPayload :=
  match existing_file with
  | some _ => .error .configExists
  | none => .ok { dflt := provider_name, providers := [(provider_name, provider_config)] }

/-- Embedding of `LLMInitService.initialize`: reads the global registry,
validates provider selection and kind, normalizes local configs (running the
model pull whose outcome is the `pull_result` parameter), and writes the
project configuration. -/
def init_project (global_config : Config) (existing_file : Option String)
    (pull_result : Except InitError String) : Except InitError (InitResult × ProjectPayload) :=
  match global_config.llm with
  | none => .error .missingConfig
  | some l =>
    if llm_section_truthy l = false then .error .missingConfig
    else if truthy l.dflt = false then .error .missingConfig
    else
      let default_provider := l.dflt.getD ""
      let providers := l.providers.getD []
      match dget providers default_provider with
      | none => .error .missingConfig
      | some provider_config =>
        if provider_config.isEmpty then .error .missingConfig
        else
          match dget provider_config "type" with
          | some "cloud" =>
            if truthy (dget provider_config "api_key") = false then .error .missingApiKey
            else
              match write_project_config existing_file default_provider provider_config with
              | .error e => .error e
              | .ok payload =>
                .ok ({ provider_name := default_provider,
                       provider_config := provider_config,
                       pull_response := none }, payload)
          | some "local" =>
            if !(default_provider.toLower = "ollama") then .error .unsupportedLocalProvider
            else
              let model := py_or_str (dget provider_config "model") "deepseek-coder-v2"
              let url := py_or_str (dget provider_config "url") "http://localhost:11434"
              let normalized := dset (dset provider_config "model" model) "url" url
              match pull_result with
              | .error e => .error e
              | .ok resp =>
                match write_project_config existing_file default_provider normalized with
                | .error e => .error e
                | .ok payload =>
                  .ok ({ provider_name := default_provider,
                         provider_config := normalized,
                         pull_response := some resp }, payload)
          | _ => .error .unknownProviderType

/-- Rendering of one provider dict for the project file text. -/
def render_provider_dict (d : Dict String) : String :=
  d.foldl (fun acc kv => acc ++ "      " ++ kv.1 ++ ": " ++ kv.2 ++ "\n") ""

/-- Deterministic rendering of the project payload, standing in for the
structured-text dump; the claims only depend on which entries it carries. -/
def render_project_yaml (p : ProjectPayload) : String :=
  "llm:\n  default: " ++ p.dflt ++ "\n  providers:\n"
  ++ p.providers.foldl (fun acc kv => acc ++ "    " ++ kv.1 ++ ":\n" ++ render_provider_dict kv.2) ""

/-- The content of the project file slot after an initialization attempt: a
successful run writes the rendered payload, a failed run leaves the previous
content in place. -/
def init_project_file (global_config : Config) (existing_file : Option String)
    (pull_result : Except InitError String) : Option String :=
  match init_project global_config existing_file pull_result with
  | .ok (_, payload) => some (render_project_yaml payload)
  | .error _ => existing_file

/-- Claim C10: whatever the registry state and whatever the pull outcome,
initializing a directory that already holds a `.smartgen.yml` raises an
`LLMInitError` and leaves the existing file content unchanged. -/
theorem init_refuses_existing_project_config :
    ∀ (cfg : Config) (content : String) (pull_result : Except InitError String),
      is_err (init_project cfg (some content) pull_result) = true ∧
      init_project_file cfg (some content) pull_result = some content := by
  intro cfg content pull_result
  have h : is_err (init_project cfg (some content) pull_result) = true := by
    unfold init_project
    cases cfg.llm with
    | none => rfl
    | some l =>
      simp only [write_project_config]
      repeat' split
      all_goals rfl
  refine ⟨h, ?_⟩
  unfold init_project_file
  cases hI : init_project cfg (some content) pull_result with
  | ok v =>
    rw [hI] at h
    simp [is_err] at h
  | error e => rfl

/-- The concrete global registry of the C1 failing input: a cloud provider
with a configured API key, selected as default. -/
def c1_global_config : Config :=
  { llm := some { dflt := some "openai",
                  providers := some [("openai",
                    [("type", "cloud"), ("api_key", "sk-test"), ("model", "gpt-4")])] } }

/-- Claim C1 fails on the code: initializing with a cloud provider succeeds
and the payload written to the project file carries the provider entry
verbatim, `api_key` included — the secret is not excluded from the persisted
per-project form. -/
theorem init_writes_api_key_into_project_file :
    ∃ res payload, init_project c1_global_config none (.ok "") = .ok (res, payload) ∧
      hasKey ((dget payload.providers "openai").getD []) "api_key" = true :=
  ⟨{ provider_name := "openai",
     provider_config := [("type", "cloud"), ("api_key", "sk-test"), ("model", "gpt-4")],
     pull_response := none },
   { dflt := "openai",
     providers := [("openai", [("type", "cloud"), ("api_key", "sk-test"), ("model", "gpt-4")])] },
   rfl, rfl⟩

/-! ## JSON values and the decoding capability

The standard-library JSON decoder used by the materializer is modelled by
an executable recursive-descent parser over the character list of the
input, following the JSON grammar as accepted by the Python decoder
(strict strings, no trailing commas, maximal number literals; the
non-standard NaN and Infinity extensions are not modelled). -/

/-- A parsed JSON value; numbers keep their raw literal text. -/
inductive JVal where
  | null
  | bool (b : Bool)
  | num (raw : String)
  | str (s : String)
  | arr (items : List JVal)
  | obj (members : List (String × JVal))

/-- The whitespace characters the JSON decoder skips. -/
def json_ws_chars : List Char := [' ', '\t', '\n', '\r']

/-- Skip leading JSON whitespace. -/
def skip_ws : List Char → List Char
  | [] => []
  | c :: cs => if c ∈ json_ws_chars then skip_ws cs else c :: cs

/-- Value of a hexadecimal digit. -/
def hex_val (c : Char) : Option Nat :=
  if '0' ≤ c ∧ c ≤ '9' then some (c.toNat - 48)
  else if 'a' ≤ c ∧ c ≤ 'f' then some (c.toNat - 87)
  else if 'A' ≤ c ∧ c ≤ 'F' then some (c.toNat - 55)
  else none

/-- Parse the remainder of a JSON string literal (after the opening quote),
accumulating decoded characters; rejects unescaped control characters. -/
def parse_json_string (fuel : Nat) (cs : List Char) (acc : List Char) :
    Option (String × List Char) :=
  match fuel, cs with
  | 0, _ => none
  | _, [] => none
  | fuel + 1, c :: rest =>
    if c = '"' then some (String.mk acc.reverse, rest)
    else if c = '\\' then
      match rest with
      | [] => none
      | e :: rest2 =>
        if e = '"' then parse_json_string fuel rest2 ('"' :: acc)
        else if e = '\\' then parse_json_string fuel rest2 ('\\' :: acc)
        else if e = '/' then parse_json_string fuel rest2 ('/' :: acc)
        else if e = 'b' then parse_json_string fuel rest2 ('\x08' :: acc)
        else if e = 'f' then parse_json_string fuel rest2 ('\x0c' :: acc)
        else if e = 'n' then parse_json_string fuel rest2 ('\n' :: acc)
        else if e = 'r' then parse_json_string fuel rest2 ('\r' :: acc)
        else if e = 't' then parse_json_string fuel rest2 ('\t' :: acc)
        else if e = 'u' then
          match rest2 with
          | h1 :: h2 :: h3 :: h4 :: rest3 =>
            match hex_val h1, hex_val h2, hex_val h3, hex_val h4 with
            | some a, some b, some c2, some d =>
              parse_json_string fuel rest3
                (Char.ofNat (a * 4096 + b * 256 + c2 * 16 + d) :: acc)
            | _, _, _, _ => none
          | _ => none
        else none
    else if c.toNat < 32 then none
    else parse_json_string fuel rest (c :: acc)

/-- Take the maximal run of leading decimal digits. -/
def span_digits : List Char → (List Char × List Char)
  | [] => ([], [])
  | c :: t =>
    if c.isDigit then
      let (ds, r) := span_digits t
      (c :: ds, r)
    else ([], c :: t)

/-- Maximal match of the optional fraction and exponent parts of a JSON
number literal; a malformed part is left unconsumed, as the decoder's
regular expression does. -/
def parse_frac_exp (cs : List Char) : (List Char × List Char) :=
  let (frac_part, rest1) :=
    match cs with
    | '.' :: t =>
      match span_digits t with
      | ([], _) => (([] : List Char), cs)
      | (ds, r) => ('.' :: ds, r)
    | _ => (([] : List Char), cs)
  let (exp_part, rest2) :=
    match rest1 with
    | e :: t =>
      if e = 'e' ∨ e = 'E' then
        let (sgn, t2) :=
          match t with
          | s :: t3 => if s = '+' ∨ s = '-' then (([s] : List Char), t3) else ([], t)
          | [] => (([] : List Char), t)
        match span_digits t2 with
        | ([], _) => (([] : List Char), rest1)
        | (ds, r) => (e :: (sgn ++ ds), r)
      else (([] : List Char), rest1)
    | [] => (([] : List Char), rest1)
  (frac_part ++ exp_part, rest2)

/-- Parse a JSON number literal, maximal match, keeping the raw text. -/
def parse_json_number (cs : List Char) : Option (String × List Char) :=
  let (sign, cs1) :=
    match cs with
    | '-' :: t => ((['-'] : List Char), t)
    | _ => (([] : List Char), cs)
  match cs1 with
  | [] => none
  | c :: t =>
    if c = '0' then
      let (fe, rest) := parse_frac_exp t
      some (String.mk (sign ++ [c] ++ fe), rest)
    else if c.isDigit then
      let (ds, r1) := span_digits t
      let (fe, rest) := parse_frac_exp r1
      some (String.mk (sign ++ [c] ++ ds ++ fe), rest)
    else none

mutual

/-- Parse one JSON value at the head of the input. -/
def parse_value : Nat → List Char → Option (JVal × List Char)
  | 0, _ => none
  | fuel + 1, cs =>
    match cs with
    | [] => none
    | c :: rest =>
      if c = '\x7b' then parse_obj_items fuel (skip_ws rest) [] true
      else if c = '[' then parse_arr_items fuel (skip_ws rest) [] true
      else if c = '"' then
        match parse_json_string (rest.length + 1) rest [] with
        | some (s, r) => some (JVal.str s, r)
        | none => none
      else if ("true".data).isPrefixOf cs then some (JVal.bool true, cs.drop 4)
      else if ("false".data).isPrefixOf cs then some (JVal.bool false, cs.drop 5)
      else if ("null".data).isPrefixOf cs then some (JVal.null, cs.drop 4)
      else
        match parse_json_number cs with
        | some (raw, r) => some (JVal.num raw, r)
        | none => none

/-- Parse the items of a JSON array after the opening bracket (whitespace
already skipped). -/
def parse_arr_items : Nat → List Char → List JVal → Bool → Option (JVal × List Char)
  | 0, _, _, _ => none
  | fuel + 1, cs, acc, first =>
    match cs with
    | [] => none
    | c :: rest =>
      if first ∧ c = ']' then some (JVal.arr [], rest)
      else
        match parse_value fuel cs with
        | none => none
        | some (v, r) =>
          match skip_ws r with
          | ',' :: t => parse_arr_items fuel (skip_ws t) (acc ++ [v]) false
          | ']' :: t => some (JVal.arr (acc ++ [v]), t)
          | _ => none

/-- Parse the members of a JSON object after the opening brace (whitespace
already skipped). -/
def parse_obj_items : Nat → List Char → List (String × JVal) → Bool →
    Option (JVal × List Char)
  | 0, _, _, _ => none
  | fuel + 1, cs, acc, first =>
    match cs with
    | [] => none
    | c :: rest =>
      if first ∧ c = '\x7d' then some (JVal.obj [], rest)
      else if c = '"' then
        match parse_json_string (rest.length + 1) rest [] with
        | none => none
        | some (key, r1) =>
          match skip_ws r1 with
          | ':' :: r2 =>
            match parse_value fuel (skip_ws r2) with
            | none => none
            | some (v, r3) =>
              match skip_ws r3 with
              | ',' :: t => parse_obj_items fuel (skip_ws t) (acc ++ [(key, v)]) false
              | '\x7d' :: t => some (JVal.obj (acc ++ [(key, v)]), t)
              | _ => none
          | _ => none
      else none

end

/-- The JSON decoding capability (`json.loads`): parses the whole input up
to trailing whitespace, rejecting extra data. -/
def json_loads (s : String) : Option JVal :=
  match parse_value (2 * s.data.length + 2) (skip_ws s.data) with
  | some (v, rest) => if skip_ws rest = [] then some v else none
  | none => none

/-! ## String search primitives (`str.find`, `str.rfind`, slicing, `strip`) -/

/-- Index of the first occurrence of the needle at or after position `i`. -/
def find_aux : List Char → List Char → Nat → Option Nat
  | [], needle, i => if needle.isEmpty then some i else none
  | c :: t, needle, i =>
    if needle.isPrefixOf (c :: t) then some i else find_aux t needle (i + 1)

/-- Models `s.find(sub)`: index of the first occurrence, `none` for `-1`. -/
def str_find (s sub : String) : Option Nat :=
  find_aux s.data sub.data 0

/-- Models `s.find(sub, start)`. -/
def str_find_from (s sub : String) (start : Nat) : Option Nat :=
  (find_aux (s.data.drop start) sub.data 0).map (· + start)

/-- Substring containment test, models the Python `in` operator on strings. -/
def str_contains (s sub : String) : Bool :=
  (str_find s sub).isSome

def rfind_char_aux : List Char → Char → Nat → Option Nat → Option Nat
  | [], _, _, acc => acc
  | c :: t, target, i, acc =>
    rfind_char_aux t target (i + 1) (if c = target then some i else acc)

/-- Models `s.rfind(c)` for a single character: index of the last
occurrence, `none` for `-1`. -/
def str_rfind_char (s : String) (c : Char) : Option Nat :=
  rfind_char_aux s.data c 0 none

/-- Models the slice `s[i:j]` for `0 ≤ i, j` (clamped like Python). -/
def substr (s : String) (i j : Nat) : String :=
  String.mk ((s.data.drop i).take (j - i))

/-- The Python `str.strip` whitespace set. -/
def py_space (c : Char) : Bool :=
  c ∈ [' ', '\t', '\n', '\r', '\x0b', '\x0c']

/-- Models `str.strip()`. -/
def py_strip (s : String) : String :=
  String.mk (((s.data.dropWhile py_space).reverse.dropWhile py_space).reverse)

/-! ## Response materialization parsing
(`LayoutGeneratorService._parse_llm_json_response` and the inline
extraction of `DomainGeneratorService._write_domain_files`) -/

/-- The parse errors of the layout materializer. The code formats the
decoder exception into the message as well; only the structure relevant to
the claims (fixed text versus text including a response snippet) is kept. -/
inductive ParseErr where
  | noJson
  | parseFailed (snippet : String)
deriving DecidableEq

/-- The fixed message raised when no brace-delimited candidate exists. -/
def no_json_message : String :=
  "No valid JSON found in LLM response. Make sure the model is configured correctly and supports JSON output."

/-- The user-visible message of a layout parse error. -/
def parse_err_message : ParseErr → String
  | .noJson => no_json_message
  | .parseFailed snippet =>
      "Failed to parse JSON from LLM response.\nResponse snippet: " ++ snippet ++ "..."

/-- One iteration of the fence loop of `_parse_llm_json_response`: when the
fence marker occurs, take the text from just after its first occurrence to
the next triple-backtick, strip it, and try to decode it. -/
def try_fence (response fence : String) : Option JVal :=
  match str_find response fence with
  | none => none
  | some i =>
    let start := i + fence.length
    match str_find_from response "```" start with
    | none => none
    | some e =>
      if start < e then json_loads (py_strip (substr response start e)) else none

/-- The brace-delimited candidate range of the layout parser: first brace
index and last closing-brace index, provided the latter lies strictly after
the former. -/
def brace_range (response : String) : Option (Nat × Nat) :=
  match str_find response "\x7b", str_rfind_char response '\x7d' with
  | some i, some j => if i < j then some (i, j) else none
  | _, _ => none

/-- The diagnostic snippet: up to 200 characters from the first brace. -/
def snippet_from (response : String) (json_start : Nat) : String :=
  substr response json_start (json_start + 200)

/-- The final stage of `_parse_llm_json_response`: decode between the first
brace and the last closing brace, with the two error shapes of the code. -/
def braces_stage_layout (response : String) : Except ParseErr JVal :=
  match brace_range response with
  | none => .error .noJson
  | some (i, j) =>
    match json_loads (substr response i (j + 1)) with
    | some v => .ok v
    | none => .error (.parseFailed (snippet_from response i))

/-- Embedding of `_parse_llm_json_response`: whole text, then the fence
loop over the markers in order, then the brace stage. -/
def parse_llm_json_response (response : String) : Except ParseErr JVal :=
  match json_loads response with
  | some v => .ok v
  | none =>
    match try_fence response "```json" with
    | some v => .ok v
    | none =>
      match try_fence response "```" with
      | some v => .ok v
      | none => braces_stage_layout response

/-- The parse errors of the domain materializer (neither carries a snippet
of the response). -/
inductive DomainParseErr where
  | noJson
  | parseFailed
deriving DecidableEq

/-- Embedding of the JSON extraction inside `_write_domain_files`: only the
first-brace-to-last-brace strategy, with `rfind` returning `-1` modelled
through the `json_end = 0` test of the code. -/
def write_domain_extract (llm_response : String) : Except DomainParseErr JVal :=
  match str_find llm_response "\x7b" with
  | none => .error .noJson
  | some json_start =>
    let json_end :=
      match str_rfind_char llm_response '\x7d' with
      | some j => j + 1
      | none => 0
    if json_end = 0 then .error .noJson
    else
      match json_loads (substr llm_response json_start json_end) with
      | some v => .ok v
      | none => .error .parseFailed

/-- Spec-side strategy three: the brace-delimited candidate, as a pure
parsing attempt. -/
def strategy_braces (response : String) : Option JVal :=
  match brace_range response with
  | some (i, j) => json_loads (substr response i (j + 1))
  | none => none

/-- The amended ordered fallback chain, written as the short-circuiting
first success of the list of pure strategies — whole text, first
json-tagged fence, first plain fence, brace range — with the error shape of
the code when all fail. -/
def parse_chain_spec (response : String) : Except ParseErr JVal :=
  match oOr (json_loads response) (oOr (try_fence response "```json")
      (oOr (try_fence response "```") (strategy_braces response))) with
  | some v => .ok v
  | none =>
    match brace_range response with
    | none => .error .noJson
    | some (i, _) => .error (.parseFailed (snippet_from response i))

/-- The amended domain-side chain: only the brace strategy, errors carrying
no snippet. -/
def domain_chain_spec (response : String) : Except DomainParseErr JVal :=
  match str_find response "\x7b", str_rfind_char response '\x7d' with
  | some i, some j =>
    match json_loads (substr response i (j + 1)) with
    | some v => .ok v
    | none => .error .parseFailed
  | _, _ => .error .noJson

/-- The manifest value of the robustness table rows. -/
def files_manifest_jval : JVal :=
  .obj [("files", .arr [.obj [("path", .str "a.txt"), ("content", .str "x")]])]

/-- Table row: the bare manifest JSON. -/
def row_plain : String :=
  "\x7b\"files\":[\x7b\"path\":\"a.txt\",\"content\":\"x\"\x7d]\x7d"

/-- Table row: the manifest in a json-tagged fence wrapped in prose. -/
def row_fenced : String :=
  "Here is the manifest:\n```json\n\x7b\"files\":[\x7b\"path\":\"a.txt\",\"content\":\"x\"\x7d]\x7d\n```\nDone."

/-- Table row: the manifest between prose, extracted by the brace range. -/
def row_prose : String :=
  "Sure! \x7b\"files\":[\x7b\"path\":\"a.txt\",\"content\":\"x\"\x7d]\x7d Hope that helps!"

/-- Claim C2 (amended): the layout materializer applies the ordered
fallback chain — whole text as JSON; the text after the first json-tagged
fence marker up to the next triple-backtick, stripped; failing that the
same for the first plain triple-backtick; the substring from the first
brace to the last closing brace — short-circuiting on first success. When
all fail with a valid brace range present, the error carries a snippet of
up to 200 characters from the first brace; when no valid brace range
exists, the error carries a fixed message without the raw text. The domain
materializer applies only the brace strategy, with no snippet in its
errors. The three successful robustness-table rows and the failing row
behave as the spec table states, except for the message content. -/
theorem parse_fallback_chain :
    ∀ (response : String),
      parse_llm_json_response response = parse_chain_spec response ∧
      write_domain_extract response = domain_chain_spec response ∧
      parse_llm_json_response row_plain = .ok files_manifest_jval ∧
      parse_llm_json_response row_fenced = .ok files_manifest_jval ∧
      parse_llm_json_response row_prose = .ok files_manifest_jval ∧
      parse_llm_json_response "no json here" = .error .noJson := by
  intro response
  refine ⟨?_, ?_, rfl, rfl, rfl, rfl⟩
  · unfold parse_llm_json_response parse_chain_spec
    cases h1 : json_loads response with
    | some v => simp [oOr]
    | none =>
      cases h2 : try_fence response "```json" with
      | some v => simp [oOr]
      | none =>
        cases h3 : try_fence response "```" with
        | some v => simp [oOr]
        | none =>
          simp only [oOr]
          unfold braces_stage_layout strategy_braces
          cases h4 : brace_range response with
          | none => rfl
          | some p =>
            obtain ⟨i, j⟩ := p
            cases h5 : json_loads (substr response i (j + 1)) with
            | some v => rfl
            | none => rfl
  · unfold write_domain_extract domain_chain_spec
    cases h1 : str_find response "\x7b" with
    | none => rfl
    | some i =>
      cases h2 : str_rfind_char response '\x7d' with
      | none => rfl
      | some j =>
        simp only
        rw [if_neg (Nat.succ_ne_zero j)]

/-- Counterexample for C2 as stated: on the input `no json here`, which
contains no brace at all, the layout parser raises the fixed-message error,
and that message does not include the raw text, contrary to the claim that
the message includes the raw text when no brace exists. -/
theorem parse_error_message_omits_raw_text :
    parse_llm_json_response "no json here" = .error .noJson ∧
    str_find "no json here" "\x7b" = none ∧
    parse_err_message ParseErr.noJson = no_json_message ∧
    str_contains no_json_message "no json here" = false :=
  ⟨rfl, rfl, rfl, rfl⟩

end Smartgen
